import Mathlib

/-!
Verification development for the Forge-Plugin-Dev repository.

The file shallowly embeds the parts of the repository that the verified
properties are about:

* the JavaScript value/record model shared by the task-system plugin
  (`Value`, `Frontmatter`, property access and truthiness);
* `DateUtils` (src/plugins/task-system/src/utils/date.utils.ts);
* the dynamic schema (schema.definition.ts: core fields, combined fields,
  required fields);
* `SchemaValidator.validate` (schema.validator.ts);
* `DefaultValueAssigner.assignDefaults` (schema.defaults.ts, the snapshot
  that preserves existing creation dates and normalizes date objects);
* the `FileEventHandler.processFile` gate (validation.commands.ts);
* `FrontmatterWriter.writeFrontmatter` text computation
  (frontmatter.writer.ts);
* the sortable-list `writeBack` splice (src/plugins/sortable-list/src/main.ts).

JavaScript numbers are modelled as integers (the records under validation
carry integer-or-string scalars); the modelled fragment of the `Number`
coercion covers decimal integer strings, which is the fragment the theorems
evaluate.  Dates are calendar triples: an ECMAScript `Date` constructed from
a date-only ISO string is `Invalid Date` unless year/month/day denote a real
calendar date, and `toISOString` of such a date reproduces the zero-padded
`YYYY-MM-DD` text.
-/

/-- JavaScript values as they occur in parsed frontmatter records: strings,
booleans, numbers, `Date` objects (calendar triples), arrays of strings, and
`null`.  Absence of a key is represented by `Option.none` at lookup. -/
inductive Value where
  | str (s : String)
  | bool (b : Bool)
  | num (n : Int)
  | date (y m d : Nat)
  | list (xs : List String)
  | null
deriving DecidableEq

/-- A parsed frontmatter record: `Record<string, any>` as an association list
in insertion order (JavaScript objects preserve insertion order). -/
abbrev Frontmatter := List (String × Value)

/-- Property read `record[key]`: the first binding of `key`.  `Option.none`
models both a missing property and `undefined`. -/
def getKey : Frontmatter → String → Option Value
  | [], _ => Option.none
  | (k, v) :: rest, key => if k == key then Option.some v else getKey rest key

/-- Property write `record[key] = v`: overwrite in place when the key exists
(JavaScript keeps the original insertion position), append otherwise. -/
def setKey : Frontmatter → String → Value → Frontmatter
  | [], key, v => [(key, v)]
  | (k, w) :: rest, key, v =>
    if k == key then (k, v) :: rest else (k, w) :: setKey rest key v

/-- JavaScript truthiness of a value.  (`NaN` is outside the model.) -/
def truthy : Value → Bool
  | .str s => s != ""
  | .bool b => b
  | .num n => n != 0
  | .date _ _ _ => true
  | .list _ => true
  | .null => false

/-- Truthiness of a property read; a missing property (`undefined`) is falsy. -/
def truthyOpt : Option Value → Bool
  | Option.none => false
  | Option.some v => truthy v

/-- A calendar date `(year, month, day)`. -/
structure Ymd where
  year : Nat
  month : Nat
  day : Nat
deriving DecidableEq

/-- Left-pad a month/day number to two digits. -/
def pad2 (n : Nat) : String :=
  if n < 10 then "0" ++ toString n else toString n

/-- Left-pad a year number to four digits (as `toISOString` prints years up
to 9999). -/
def pad4 (n : Nat) : String :=
  if n < 10 then "000" ++ toString n
  else if n < 100 then "00" ++ toString n
  else if n < 1000 then "0" ++ toString n
  else toString n

/-- DateUtils.formatDate for the default format, and the date part of
`toISOString`: the `YYYY-MM-DD` text of a calendar date. -/
def formatYmd (d : Ymd) : String :=
  pad4 d.year ++ "-" ++ pad2 d.month ++ "-" ++ pad2 d.day

/-- Gregorian leap-year rule. -/
def isLeapYear (y : Nat) : Bool :=
  (y % 4 == 0 && y % 100 != 0) || y % 400 == 0

/-- Days in a month of a given year. -/
def daysInMonth (y m : Nat) : Nat :=
  if m == 2 then (if isLeapYear y then 29 else 28)
  else if m == 4 || m == 6 || m == 9 || m == 11 then 30
  else 31

/-- Numeric value of a decimal digit character. -/
def digitVal (c : Char) : Nat := c.toNat - 48

/-- Test of the regular expression `^\d{4}-\d{2}-\d{2}$` from
`DateUtils.isValidDateString`. -/
def matchesIsoShape (s : String) : Bool :=
  match s.data with
  | [y1, y2, y3, y4, h1, m1, m2, h2, d1, d2] =>
    y1.isDigit && y2.isDigit && y3.isDigit && y4.isDigit && h1 == '-' &&
      m1.isDigit && m2.isDigit && h2 == '-' && d1.isDigit && d2.isDigit
  | _ => false

/-- Model of `new Date(dateStr)` on a `\d{4}-\d{2}-\d{2}` string:
ECMAScript parses a date-only ISO string as a UTC calendar date and yields
`Invalid Date` (here `Option.none`) when the components are out of bounds
(month outside 1..12 or day outside the month). -/
def parseIsoYmd (s : String) : Option Ymd :=
  match s.data with
  | [y1, y2, y3, y4, h1, m1, m2, h2, d1, d2] =>
    if (y1.isDigit && y2.isDigit && y3.isDigit && y4.isDigit && h1 == '-' &&
        m1.isDigit && m2.isDigit && h2 == '-' && d1.isDigit && d2.isDigit) then
      let y := ((digitVal y1 * 10 + digitVal y2) * 10 + digitVal y3) * 10 + digitVal y4
      let m := digitVal m1 * 10 + digitVal m2
      let d := digitVal d1 * 10 + digitVal d2
      if 1 ≤ m ∧ m ≤ 12 ∧ 1 ≤ d ∧ d ≤ daysInMonth y m then Option.some ⟨y, m, d⟩
      else Option.none
    else Option.none
  | _ => Option.none

/-- DateUtils.isValidDateString: the empty-string guard, the
`^\d{4}-\d{2}-\d{2}$` test, the `new Date` parse (`Invalid Date` rejected),
and the `toISOString().startsWith(dateStr)` round trip (`toISOString` of a
UTC midnight is the `YYYY-MM-DDT00:00:00.000Z` text). -/
def isValidDateString (s : String) : Bool :=
  if s == "" then false
  else if ! matchesIsoShape s then false
  else
    match parseIsoYmd s with
    | Option.none => false
    | Option.some d => List.isPrefixOf s.data (formatYmd d ++ "T00:00:00.000Z").data

/-- DateUtils.parseDate: `null` unless `isValidDateString`, else the parsed
date. -/
def parseDate (s : String) : Option Ymd :=
  if ! isValidDateString s then Option.none else parseIsoYmd s

/-- Comparison of two calendar dates (`dueDate < today` on `Date` objects at
midnight). -/
def ymdLt (a b : Ymd) : Bool :=
  if a.year ≠ b.year then decide (a.year < b.year)
  else if a.month ≠ b.month then decide (a.month < b.month)
  else decide (a.day < b.day)

/-- A user-configured schema field (settings.interface.ts,
`CustomSchemaField`).  `type` is one of the type-name strings the validator
switches on. -/
structure CustomSchemaField where
  id : String
  displayName : String
  key : String
  type : String
  required : Bool
  defaultValue : Option Value
  enumValues : Option (List String)
  description : Option String
deriving DecidableEq

/-- An effective schema field (schema.definition.ts, `SchemaField`). -/
structure SchemaField where
  name : String
  type : String
  required : Bool
  defaultValue : Option Value
  enumValues : Option (List String)
  displayName : Option String
  description : Option String
deriving DecidableEq

/-- The fixed list of core required field keys (schema.definition.ts,
`CORE_REQUIRED_FIELDS`). -/
def CORE_REQUIRED_FIELDS : List String :=
  ["atomic-task", "title", "created_date", "status"]

/-- schema.definition.ts, `VALID_STATUS_VALUES`. -/
def VALID_STATUS_VALUES : List String := ["todo", "in_progress", "blocked", "done"]

/-- schema.definition.ts, `VALID_PRIORITY_VALUES`. -/
def VALID_PRIORITY_VALUES : List String := ["low", "medium", "high"]

/-- The core schema fields that are always present (schema.definition.ts,
`CORE_SCHEMA_FIELDS`). -/
def CORE_SCHEMA_FIELDS : List SchemaField :=
  [⟨"atomic-task", "boolean", true, Option.none, Option.none,
      Option.some "Atomic Task", Option.some "Marks this note as an atomic task"⟩,
   ⟨"title", "string", true, Option.none, Option.none,
      Option.some "Title", Option.some "Task title"⟩,
   ⟨"created_date", "date", true, Option.none, Option.none,
      Option.some "Created Date", Option.some "When the task was created"⟩,
   ⟨"status", "enum", true, Option.some (Value.str "todo"),
      Option.some VALID_STATUS_VALUES, Option.some "Status",
      Option.some "Current task status"⟩]

/-- schema.definition.ts, `getCombinedSchemaFields`: the core fields followed
by the custom fields converted to `SchemaField` shape, in order. -/
def getCombinedSchemaFields (customFields : List CustomSchemaField) : List SchemaField :=
  CORE_SCHEMA_FIELDS ++ customFields.map (fun c =>
    ⟨c.key, c.type, c.required, c.defaultValue, c.enumValues,
      Option.some c.displayName, c.description⟩)

/-- schema.definition.ts, `getRequiredFields`: the core required keys
followed by the keys of the required custom fields, in order. -/
def getRequiredFields (customFields : List CustomSchemaField) : List String :=
  CORE_REQUIRED_FIELDS ++ (customFields.filter (fun f => f.required)).map (fun f => f.key)

/-- One entry of the errors/warnings lists of a validation result
(schema.validator.ts, `ValidationError` / `ValidationWarning`). -/
structure ValidationIssue where
  field : String
  message : String
  severity : String
deriving DecidableEq

/-- schema.validator.ts, `ValidationResult`. -/
structure ValidationResult where
  isValid : Bool
  errors : List ValidationIssue
  warnings : List ValidationIssue
deriving DecidableEq

/-- The required-field test of `SchemaValidator.validate`: the property is
absent, `null`, `undefined`, or the empty string. -/
def missingOrEmpty (fm : Frontmatter) (field : String) : Bool :=
  match getKey fm field with
  | Option.none => true
  | Option.some .null => true
  | Option.some (.str s) => s == ""
  | Option.some _ => false

/-- Whitespace trim on a character list (the `String.prototype.trim` of the
`Number` coercion and of `extractTitleFromFilename`). -/
def charTrim (cs : List Char) : List Char :=
  ((cs.dropWhile Char.isWhitespace).reverse.dropWhile Char.isWhitespace).reverse

/-- The decimal-integer fragment of the `Number(string)` coercion: trimmed
empty string is `0`, an optionally signed digit string is its value,
everything else is `NaN` (`Option.none`). -/
def jsStringToNumber (s : String) : Option Int :=
  let t := charTrim s.data
  if t = [] then Option.some 0
  else
    match t with
    | '-' :: ds =>
      if ds ≠ [] ∧ ds.all Char.isDigit then
        Option.some (-(Int.ofNat (ds.foldl (fun a c => a * 10 + digitVal c) 0)))
      else Option.none
    | '+' :: ds =>
      if ds ≠ [] ∧ ds.all Char.isDigit then
        Option.some (Int.ofNat (ds.foldl (fun a c => a * 10 + digitVal c) 0))
      else Option.none
    | ds =>
      if ds.all Char.isDigit then
        Option.some (Int.ofNat (ds.foldl (fun a c => a * 10 + digitVal c) 0))
      else Option.none

/-- The `Number(value)` coercion (`Option.none` is `NaN`).  A `Date` object
coerces to its finite timestamp; its magnitude is irrelevant here and is
modelled as `0`. -/
def jsNumber : Value → Option Int
  | .str s => jsStringToNumber s
  | .bool b => Option.some (if b then 1 else 0)
  | .num n => Option.some n
  | .date _ _ _ => Option.some 0
  | .list xs =>
    match xs with
    | [] => Option.some 0
    | [x] => jsStringToNumber x
    | _ => Option.none
  | .null => Option.some 0

/-- `SchemaValidator.validateFieldType`: the switch on the field type name,
transcribed case by case; the returned list holds the pushed error, if any. -/
def validateFieldType (fieldName : String) (value : Value) (fieldType : String)
    (enumValues : Option (List String)) : List ValidationIssue :=
  if fieldType == "boolean" then
    match value with
    | .bool _ => []
    | _ => [⟨fieldName, fieldName ++ " must be a boolean (true or false)", "error"⟩]
  else if fieldType == "string" || fieldType == "text" then
    match value with
    | .str _ => []
    | _ => [⟨fieldName, fieldName ++ " must be a string", "error"⟩]
  else if fieldType == "number" then
    -- source: `if (typeof value !== 'number' && !isNaN(Number(value)))`
    if (match value with | .num _ => false | _ => true) && (jsNumber value).isSome then
      [⟨fieldName, fieldName ++ " must be a number", "error"⟩]
    else []
  else if fieldType == "date" then
    match value with
    | .date _ _ _ => []
    | .str s =>
      if s ≠ "" ∧ ¬ isValidDateString s then
        [⟨fieldName, fieldName ++ " must be a valid date in YYYY-MM-DD format", "error"⟩]
      else []
    | _ => []
  else if fieldType == "array" || fieldType == "list" then
    match value with
    | .list _ => []
    | _ => [⟨fieldName, fieldName ++ " must be an array/list", "error"⟩]
  else if fieldType == "enum" then
    match enumValues with
    | Option.some evs =>
      if ! (match value with | .str s => evs.contains s | _ => false) then
        [⟨fieldName, fieldName ++ " must be one of: " ++ String.intercalate ", " evs, "error"⟩]
      else []
    | Option.none => []
  else []

/-- `SchemaValidator.validateSchemaFields`: type-check every schema field
whose value is present (not `undefined`, not `null`). -/
def fieldTypeErrorList (fm : Frontmatter) (schemaFields : List SchemaField) :
    List ValidationIssue :=
  schemaFields.flatMap (fun sf =>
    match getKey fm sf.name with
    | Option.none => []
    | Option.some .null => []
    | Option.some v => validateFieldType sf.name v sf.type sf.enumValues)

/-- `SchemaValidator.validateLogicalRules`: the three cross-field warning
rules, in push order. -/
def logicalRuleWarnings (fm : Frontmatter) (today : Ymd) : List ValidationIssue :=
  (if truthyOpt (getKey fm "completed_date") = true ∧
      getKey fm "status" ≠ Option.some (Value.str "done") then
    [⟨"completed_date", "completed_date is set but status is not \"done\"", "warning"⟩]
  else []) ++
  (if getKey fm "status" = Option.some (Value.str "done") ∧
      truthyOpt (getKey fm "completed_date") = false then
    [⟨"completed_date", "status is \"done\" but completed_date is not set", "warning"⟩]
  else []) ++
  (if truthyOpt (getKey fm "due_date") = true ∧
      getKey fm "status" ≠ Option.some (Value.str "done") then
    match (match getKey fm "due_date" with
           | Option.some (.str s) => parseDate s
           | _ => Option.none) with
    | Option.some due =>
      if ymdLt due today then [⟨"due_date", "due_date is in the past", "warning"⟩] else []
    | Option.none => []
  else [])

/-- `SchemaValidator.validate`: the truthiness gate on `atomic-task`, the
required-field errors, the per-field type errors, and the logical-rule
warnings.  `isValid` is true exactly when no error was pushed. -/
def validate (fm : Frontmatter) (customFields : List CustomSchemaField)
    (today : Ymd) : ValidationResult :=
  if ! truthyOpt (getKey fm "atomic-task") then
    { isValid := true, errors := [], warnings := [] }
  else
    let requiredFields := getRequiredFields customFields
    let reqErrors := requiredFields.filterMap (fun f =>
      if missingOrEmpty fm f then
        Option.some ⟨f, "Required field \x27" ++ f ++ "\x27 is missing or empty", "error"⟩
      else Option.none)
    let typeErrors := fieldTypeErrorList fm (getCombinedSchemaFields customFields)
    { isValid := (reqErrors ++ typeErrors).isEmpty,
      errors := reqErrors ++ typeErrors,
      warnings := logicalRuleWarnings fm today }

/-- frontmatter.reader.ts, `FrontmatterReader.isAtomicNote`: strict equality
with boolean `true`. -/
def isAtomicNote (fm : Frontmatter) : Bool :=
  getKey fm "atomic-task" == Option.some (Value.bool true)

/-- The pipeline settings consumed by defaulting and validation
(settings.interface.ts, `TaskSystemSettings`, restricted to the fields those
functions read). -/
structure TaskSystemSettings where
  autoPopulateDefaults : Bool
  enableValidation : Bool
  defaultStatus : String
  defaultPriority : String
  customSchemaFields : List CustomSchemaField
deriving DecidableEq

/-- schema.definition.ts, `DEFAULT_VALUES.status`. -/
def DEFAULT_STATUS : String := "todo"

/-- schema.definition.ts, `DEFAULT_VALUES.priority`. -/
def DEFAULT_PRIORITY : String := "medium"

/-- The JavaScript `a || b` fallback on strings: `b` when `a` is empty. -/
def jsOrStr (a b : String) : String := if a == "" then b else a

/-- The guard `!record.field || record.field === ''` of
`DefaultValueAssigner.assignDefaults` applied to a property read. -/
def missingOrEmptyVal (ov : Option Value) : Bool :=
  match ov with
  | Option.none => true
  | Option.some v => ! truthy v || v == Value.str ""

/-- `DefaultValueAssigner.extractTitleFromFilename`: strip a final `.md`,
turn hyphens and underscores into spaces, trim. -/
def extractTitleFromFilename (filename : String) : String :=
  let cs := filename.data
  let base := if List.isSuffixOf ".md".data cs then cs.take (cs.length - 3) else cs
  String.mk (charTrim (base.map (fun c => if c == '-' || c == '_' then ' ' else c)))

/-- One guarded assignment of `assignDefaults`: read the key, let the update
function decide the new value (`Option.none` leaves the record alone). -/
def mkStep (key : String) (upd : Option Value → Option Value) (r : Frontmatter) :
    Frontmatter :=
  match upd (getKey r key) with
  | Option.none => r
  | Option.some v => setKey r key v

/-- The title assignment: derive from the file name when missing or empty. -/
def titleUpdate (filename : String) (ov : Option Value) : Option Value :=
  if missingOrEmptyVal ov then Option.some (Value.str (extractTitleFromFilename filename))
  else Option.none

/-- The creation-date assignment: today when missing or empty, else only a
`Date` object is re-formatted to its `YYYY-MM-DD` string; any other existing
value is preserved. -/
def createdDateUpdate (today : Ymd) (ov : Option Value) : Option Value :=
  if missingOrEmptyVal ov then Option.some (Value.str (formatYmd today))
  else
    match ov with
    | Option.some (.date y m d) => Option.some (Value.str (formatYmd ⟨y, m, d⟩))
    | _ => Option.none

/-- The status assignment: `settings.defaultStatus || DEFAULT_VALUES.status`
when missing or empty. -/
def statusUpdate (settings : TaskSystemSettings) (ov : Option Value) : Option Value :=
  if missingOrEmptyVal ov then
    Option.some (Value.str (jsOrStr settings.defaultStatus DEFAULT_STATUS))
  else Option.none

/-- The priority assignment: only when auto-populate is enabled. -/
def priorityUpdate (settings : TaskSystemSettings) (ov : Option Value) : Option Value :=
  if missingOrEmptyVal ov && settings.autoPopulateDefaults then
    Option.some (Value.str (jsOrStr settings.defaultPriority DEFAULT_PRIORITY))
  else Option.none

/-- The `tags`/`dependencies` initialisation: an empty array replaces any
non-array value (`!Array.isArray(...)`). -/
def arrayInitUpdate (ov : Option Value) : Option Value :=
  if (match ov with | Option.some (.list _) => false | _ => true) then
    Option.some (Value.list [])
  else Option.none

/-- The final date normalisation of `due_date`/`completed_date`: a truthy
`Date` object becomes its `YYYY-MM-DD` string; strings are left alone. -/
def dateNormUpdate (ov : Option Value) : Option Value :=
  match ov with
  | Option.some (.date y m d) => Option.some (Value.str (formatYmd ⟨y, m, d⟩))
  | _ => Option.none

/-- `DefaultValueAssigner.assignDefaults` (schema.defaults.ts): the guarded
assignments of the source in source order — title, created_date, status,
priority, tags, dependencies, then the date normalisation of due_date and
completed_date.  `today` stands for the current date read by
`DateUtils.formatCurrentDate`. -/
def assignDefaults (fm : Frontmatter) (filename : String)
    (settings : TaskSystemSettings) (today : Ymd) : Frontmatter :=
  mkStep "completed_date" dateNormUpdate
    (mkStep "due_date" dateNormUpdate
      (mkStep "dependencies" arrayInitUpdate
        (mkStep "tags" arrayInitUpdate
          (mkStep "priority" (priorityUpdate settings)
            (mkStep "status" (statusUpdate settings)
              (mkStep "created_date" (createdDateUpdate today)
                (mkStep "title" (titleUpdate filename) fm)))))))

/-- The observable outcome of one debounced pipeline run
(`FileEventHandler.processFile` / `validateAndPopulate`). -/
inductive PipelineAction where
  | skippedNonAtomic
  | wrote (updated : Frontmatter)
  | validated (result : ValidationResult)
  | idle
deriving DecidableEq

/-- `FileEventHandler.getUpdatedFields`: the keys of `updated` whose value
differs from the original record (JSON comparison modelled as value
equality; a key absent from the original always differs). -/
def getUpdatedFields (original updated : Frontmatter) : List String :=
  updated.filterMap (fun kv =>
    if getKey original kv.1 = Option.some kv.2 then Option.none else Option.some kv.1)

/-- `FileEventHandler.validateAndPopulate`: write the defaulted record when
auto-populate changed a field (and stop), otherwise validate when validation
is enabled. -/
def validateAndPopulate (fm : Frontmatter) (filename : String)
    (settings : TaskSystemSettings) (today : Ymd) : PipelineAction :=
  if settings.autoPopulateDefaults then
    let updated := assignDefaults fm filename settings today
    if getUpdatedFields fm updated ≠ [] then PipelineAction.wrote updated
    else if settings.enableValidation then
      PipelineAction.validated (validate fm settings.customSchemaFields today)
    else PipelineAction.idle
  else if settings.enableValidation then
    PipelineAction.validated (validate fm settings.customSchemaFields today)
  else PipelineAction.idle

/-- `FileEventHandler.processFile`: a file with no frontmatter, or whose
frontmatter is not an atomic note, is skipped before any defaulting or
validation. -/
def processFile (fm : Option Frontmatter) (filename : String)
    (settings : TaskSystemSettings) (today : Ymd) : PipelineAction :=
  match fm with
  | Option.none => PipelineAction.skippedNonAtomic
  | Option.some f =>
    if ! isAtomicNote f then PipelineAction.skippedNonAtomic
    else validateAndPopulate f filename settings today

/-- Does the document text begin with the opening frontmatter fence
`---\n`? (`content.startsWith('---\n')`). -/
def startsWithFmFence : List Char → Bool
  | '-' :: '-' :: '-' :: '\n' :: _ => true
  | _ => false

/-- Position of the first occurrence of the closing fence text `\n---`
(the earliest match of the lazy `[\s\S]*?\n---`). -/
def findFence : List Char → Option Nat
  | [] => Option.none
  | '\n' :: '-' :: '-' :: '-' :: _ => Option.some 0
  | _ :: rest => (findFence rest).map (fun n => n + 1)

/-- The text computed by `FrontmatterWriter.writeFrontmatter`
(frontmatter.writer.ts): when the document starts with `---\n`, the region
matched by the anchored regex (opening fence, lazy body, closing fence
`\n---`) is replaced by the new block — and when that regex does not match,
`String.replace` returns the document unchanged; otherwise a fresh
frontmatter block is prepended. -/
def writeFrontmatterText (content yamlString : List Char) : List Char :=
  if startsWithFmFence content then
    match findFence (content.drop 4) with
    | Option.none => content
    | Option.some i =>
      "---\n".data ++ yamlString ++ "---".data ++ content.drop (4 + i + 4)
  else "---\n".data ++ yamlString ++ "---\n\n".data ++ content

/-- Checkbox state of a sortable-list item (SortableBlock.tsx,
`CheckboxState`). -/
inductive CheckboxState where
  | cbNone
  | cbUnchecked
  | cbChecked
deriving DecidableEq

/-- A sortable-list item (SortableBlock.tsx, `Item`). -/
structure Item where
  bullet : String
  checkbox : CheckboxState
  text : String
deriving DecidableEq

/-- The checkbox token of the serialized line (`tokenFor`). -/
def tokenFor : CheckboxState → String
  | .cbNone => ""
  | .cbChecked => "[x] "
  | .cbUnchecked => "[ ] "

/-- One serialized body line: `(i.bullet || '- ') + tokenFor(i.checkbox) + i.text`. -/
def serializeItem (i : Item) : String :=
  (if i.bullet == "" then "- " else i.bullet) ++ tokenFor i.checkbox ++ i.text

/-- The single-checkbox mutation `arr[mutateIndex].checkbox = mutateCheckbox`
applied when both optional arguments are supplied. -/
def setItemCheckbox : List Item → Nat → CheckboxState → List Item
  | [], _, _ => []
  | it :: rest, 0, c => { it with checkbox := c } :: rest
  | it :: rest, n + 1, c => it :: setItemCheckbox rest n c

/-- The guard `typeof mutateIndex === 'number' && mutateCheckbox` of
`writeBack`. -/
def applyCheckboxToggle (items : List Item) (mutateIndex : Option Nat)
    (mutateCheckbox : Option CheckboxState) : List Item :=
  match mutateIndex, mutateCheckbox with
  | Option.some i, Option.some c => setItemCheckbox items i c
  | _, _ => items

/-- The line splitter `text.split('\n')` on character lists: splitting at
every newline, so a text with `k` newlines yields `k + 1` pieces. -/
def splitNlChars : List Char → List (List Char)
  | [] => [[]]
  | c :: rest =>
    if c = '\n' then [] :: splitNlChars rest
    else
      match splitNlChars rest with
      | [] => [[c]]
      | l :: ls => (c :: l) :: ls

/-- The line joiner `pieces.join('\n')` on character lists. -/
def joinNlChars : List (List Char) → List Char
  | [] => []
  | [x] => x
  | x :: xs => x ++ '\n' :: joinNlChars xs

/-- `text.split('\n')` on strings. -/
def splitNl (s : String) : List String := (splitNlChars s.data).map String.mk

/-- `lines.join('\n')` on strings. -/
def joinNl (xs : List String) : String := String.mk (joinNlChars (xs.map String.data))

/-- The sortable-list `writeBack` (src/plugins/sortable-list/src/main.ts):
split the current document into lines, serialize the items, and rebuild the
document as `lines.slice(0, bodyStart) ++ newBody.split('\n') ++
lines.slice(bodyEnd)` with `bodyStart = lineStart + 1` and
`bodyEnd = lineEnd - 1`, where `lineStart`/`lineEnd` are the fence line
indices reported by `getSectionInfo` (first and last line of the block). -/
def writeBack (current : String) (lineStart lineEnd : Nat)
    (updatedItems : List Item) (mutateIndex : Option Nat)
    (mutateCheckbox : Option CheckboxState) : String :=
  let lines := splitNl current
  let bodyStart := lineStart + 1
  let bodyEnd := lineEnd - 1
  let arr := applyCheckboxToggle updatedItems mutateIndex mutateCheckbox
  let newBody := joinNl (arr.map serializeItem)
  joinNl (lines.take bodyStart ++ splitNl newBody ++ lines.drop bodyEnd)

/-- A fixed sample date standing for the current day in the closed
evaluations below. -/
def sampleToday : Ymd := ⟨2026, 10, 11⟩

/-- Sample settings: the shipped defaults of the plugin
(settings.interface.ts, `DEFAULT_SETTINGS`, with no custom fields). -/
def sampleSettings : TaskSystemSettings :=
  { autoPopulateDefaults := true
    enableValidation := true
    defaultStatus := "todo"
    defaultPriority := "medium"
    customSchemaFields := [] }

/-! Laws of the record model. -/

theorem getKey_setKey_self (r : Frontmatter) (k : String) (v : Value) :
    getKey (setKey r k v) k = Option.some v := by
  induction r with
  | nil => simp [setKey, getKey]
  | cons kv rest ih =>
    obtain ⟨k1, w⟩ := kv
    by_cases h : k1 = k
    · simp [setKey, getKey, h]
    · simp [setKey, getKey, h, ih]

theorem getKey_setKey_ne (k2 k : String) (v : Value) (r : Frontmatter)
    (h : k2 ≠ k) : getKey (setKey r k v) k2 = getKey r k2 := by
  have h2 : k ≠ k2 := Ne.symm h
  induction r with
  | nil => simp [setKey, getKey, h2]
  | cons kv rest ih =>
    obtain ⟨k1, w⟩ := kv
    by_cases h1 : k1 = k
    · subst h1
      simp [setKey, getKey, h2]
    · simp [setKey, getKey, h1, ih]

theorem setKey_getKey_eq (r : Frontmatter) (k : String) (v : Value)
    (h : getKey r k = Option.some v) : setKey r k v = r := by
  induction r with
  | nil => simp [getKey] at h
  | cons kv rest ih =>
    obtain ⟨k1, w⟩ := kv
    by_cases h1 : k1 = k
    · subst h1
      simp [getKey] at h
      simp [setKey, h]
    · simp [getKey, h1] at h
      simp [setKey, h1, ih h]

/-- The state of a key on which a guarded assignment acts no further: the
update declines, or it would rewrite the present value unchanged. -/
def FixedAt (upd : Option Value → Option Value) (ov : Option Value) : Prop :=
  upd ov = Option.none ∨ ∃ v, ov = Option.some v ∧ upd ov = Option.some v

/-- An update function whose output it never changes again. -/
def UpdStable (upd : Option Value → Option Value) : Prop :=
  ∀ ov v, upd ov = Option.some v → FixedAt upd (Option.some v)

theorem mkStep_of_upd_none {k : String} {upd : Option Value → Option Value}
    {r : Frontmatter} (h : upd (getKey r k) = Option.none) : mkStep k upd r = r := by
  unfold mkStep
  rw [h]

theorem mkStep_of_fixedAt {k : String} {upd : Option Value → Option Value}
    {r : Frontmatter} (h : FixedAt upd (getKey r k)) : mkStep k upd r = r := by
  rcases h with h | ⟨v, hv, hu⟩
  · exact mkStep_of_upd_none h
  · unfold mkStep
    rw [hu]
    exact setKey_getKey_eq r k v hv

theorem getKey_mkStep_ne (k2 k : String) (upd : Option Value → Option Value)
    (r : Frontmatter) (h : k2 ≠ k) : getKey (mkStep k upd r) k2 = getKey r k2 := by
  unfold mkStep
  cases upd (getKey r k) with
  | none => rfl
  | some v => exact getKey_setKey_ne k2 k v r h

theorem fixedAt_mkStep {upd : Option Value → Option Value} (h : UpdStable upd)
    (k : String) (r : Frontmatter) : FixedAt upd (getKey (mkStep k upd r) k) := by
  unfold mkStep
  cases hu : upd (getKey r k) with
  | none => exact Or.inl hu
  | some v =>
    rw [getKey_setKey_self]
    exact h _ v hu

theorem formatYmd_ne_empty (d : Ymd) : formatYmd d ≠ "" := by
  intro h
  have hl : (formatYmd d).length = 0 := by rw [h]; rfl
  unfold formatYmd at hl
  rw [String.length_append, String.length_append, String.length_append] at hl
  have h1 : ("-" : String).length = 1 := rfl
  rw [h1] at hl
  omega

theorem jsOrStr_ne_empty (a b : String) (hb : b ≠ "") : jsOrStr a b ≠ "" := by
  unfold jsOrStr
  split
  · exact hb
  · intro ha
    subst ha
    simp_all

theorem missingOrEmptyVal_str_false (s : String) (h : s ≠ "") :
    missingOrEmptyVal (Option.some (Value.str s)) = false := by
  simp [missingOrEmptyVal, truthy, h]

theorem updStable_titleUpdate (filename : String) : UpdStable (titleUpdate filename) := by
  intro ov v h
  unfold titleUpdate at h
  split at h
  · injection h with hv
    subst hv
    by_cases hm : missingOrEmptyVal
        (Option.some (Value.str (extractTitleFromFilename filename))) = true
    · right
      refine ⟨_, rfl, ?_⟩
      simp [titleUpdate, hm]
    · left
      simp [titleUpdate, hm]
  · exact absurd h (by simp)

theorem updStable_createdDateUpdate (today : Ymd) : UpdStable (createdDateUpdate today) := by
  intro ov v h
  have hv : ∃ t : Ymd, v = Value.str (formatYmd t) := by
    unfold createdDateUpdate at h
    split at h
    · injection h with hv
      exact ⟨today, hv.symm⟩
    · split at h
      · injection h with hv
        exact ⟨_, hv.symm⟩
      · exact absurd h (by simp)
  obtain ⟨t, rfl⟩ := hv
  left
  unfold createdDateUpdate
  rw [if_neg]
  simp [missingOrEmptyVal_str_false _ (formatYmd_ne_empty t)]

theorem updStable_statusUpdate (settings : TaskSystemSettings) :
    UpdStable (statusUpdate settings) := by
  intro ov v h
  unfold statusUpdate at h
  split at h
  · injection h with hv
    subst hv
    left
    unfold statusUpdate
    rw [if_neg]
    simp [missingOrEmptyVal_str_false _
      (jsOrStr_ne_empty settings.defaultStatus DEFAULT_STATUS (by decide))]
  · exact absurd h (by simp)

theorem updStable_priorityUpdate (settings : TaskSystemSettings) :
    UpdStable (priorityUpdate settings) := by
  intro ov v h
  unfold priorityUpdate at h
  split at h
  · injection h with hv
    subst hv
    left
    unfold priorityUpdate
    rw [if_neg]
    simp [missingOrEmptyVal_str_false _
      (jsOrStr_ne_empty settings.defaultPriority DEFAULT_PRIORITY (by decide))]
  · exact absurd h (by simp)

theorem updStable_arrayInitUpdate : UpdStable arrayInitUpdate := by
  intro ov v h
  unfold arrayInitUpdate at h
  split at h
  · injection h with hv
    subst hv
    left
    simp [arrayInitUpdate]
  · exact absurd h (by simp)

theorem updStable_dateNormUpdate : UpdStable dateNormUpdate := by
  intro ov v h
  unfold dateNormUpdate at h
  split at h
  · injection h with hv
    subst hv
    left
    rfl
  · exact absurd h (by simp)

theorem assignDefaults_idem (fm : Frontmatter) (filename : String)
    (settings : TaskSystemSettings) (today : Ymd) :
    assignDefaults (assignDefaults fm filename settings today) filename settings today
      = assignDefaults fm filename settings today := by
  set P := assignDefaults fm filename settings today with hP
  have h1 : FixedAt (titleUpdate filename) (getKey P "title") := by
    rw [hP]
    unfold assignDefaults
    simp only [getKey_mkStep_ne, ne_eq, String.reduceEq, not_false_eq_true]
    exact fixedAt_mkStep (updStable_titleUpdate filename) _ _
  have h2 : FixedAt (createdDateUpdate today) (getKey P "created_date") := by
    rw [hP]
    unfold assignDefaults
    simp only [getKey_mkStep_ne, ne_eq, String.reduceEq, not_false_eq_true]
    exact fixedAt_mkStep (updStable_createdDateUpdate today) _ _
  have h3 : FixedAt (statusUpdate settings) (getKey P "status") := by
    rw [hP]
    unfold assignDefaults
    simp only [getKey_mkStep_ne, ne_eq, String.reduceEq, not_false_eq_true]
    exact fixedAt_mkStep (updStable_statusUpdate settings) _ _
  have h4 : FixedAt (priorityUpdate settings) (getKey P "priority") := by
    rw [hP]
    unfold assignDefaults
    simp only [getKey_mkStep_ne, ne_eq, String.reduceEq, not_false_eq_true]
    exact fixedAt_mkStep (updStable_priorityUpdate settings) _ _
  have h5 : FixedAt arrayInitUpdate (getKey P "tags") := by
    rw [hP]
    unfold assignDefaults
    simp only [getKey_mkStep_ne, ne_eq, String.reduceEq, not_false_eq_true]
    exact fixedAt_mkStep updStable_arrayInitUpdate _ _
  have h6 : FixedAt arrayInitUpdate (getKey P "dependencies") := by
    rw [hP]
    unfold assignDefaults
    simp only [getKey_mkStep_ne, ne_eq, String.reduceEq, not_false_eq_true]
    exact fixedAt_mkStep updStable_arrayInitUpdate _ _
  have h7 : FixedAt dateNormUpdate (getKey P "due_date") := by
    rw [hP]
    unfold assignDefaults
    simp only [getKey_mkStep_ne, ne_eq, String.reduceEq, not_false_eq_true]
    exact fixedAt_mkStep updStable_dateNormUpdate _ _
  have h8 : FixedAt dateNormUpdate (getKey P "completed_date") := by
    rw [hP]
    unfold assignDefaults
    exact fixedAt_mkStep updStable_dateNormUpdate _ _
  unfold assignDefaults
  rw [mkStep_of_fixedAt h1, mkStep_of_fixedAt h2, mkStep_of_fixedAt h3,
    mkStep_of_fixedAt h4, mkStep_of_fixedAt h5, mkStep_of_fixedAt h6,
    mkStep_of_fixedAt h7, mkStep_of_fixedAt h8]

theorem assignDefaults_preserves_created_date (fm : Frontmatter) (filename : String)
    (settings : TaskSystemSettings) (today : Ymd) (s : String) (hs : s ≠ "")
    (h : getKey fm "created_date" = Option.some (Value.str s)) :
    getKey (assignDefaults fm filename settings today) "created_date"
      = Option.some (Value.str s) := by
  unfold assignDefaults
  simp only [getKey_mkStep_ne, ne_eq, String.reduceEq, not_false_eq_true]
  have ht : getKey (mkStep "title" (titleUpdate filename) fm) "created_date"
      = Option.some (Value.str s) := by
    rw [getKey_mkStep_ne _ _ _ _ (by decide)]
    exact h
  have hnone : createdDateUpdate today
      (getKey (mkStep "title" (titleUpdate filename) fm) "created_date")
      = Option.none := by
    rw [ht]
    unfold createdDateUpdate
    rw [if_neg]
    simp [missingOrEmptyVal_str_false s hs]
  rw [mkStep_of_upd_none hnone]
  exact ht

theorem splitNlChars_ne_nil (cs : List Char) : splitNlChars cs ≠ [] := by
  cases cs with
  | nil => simp [splitNlChars]
  | cons c rest =>
    by_cases h : c = '\n'
    · simp [splitNlChars, h]
    · cases hm : splitNlChars rest <;> simp [splitNlChars, h, hm]

theorem noNl_splitNlChars (cs : List Char) : ∀ l ∈ splitNlChars cs, '\n' ∉ l := by
  induction cs with
  | nil =>
    intro l hl
    simp [splitNlChars] at hl
    subst hl
    simp
  | cons c rest ih =>
    intro l hl
    by_cases h : c = '\n'
    · simp [splitNlChars, h] at hl
      rcases hl with rfl | hl
      · simp
      · exact ih l hl
    · cases hm : splitNlChars rest with
      | nil => exact absurd hm (splitNlChars_ne_nil rest)
      | cons x xs =>
        simp [splitNlChars, h, hm] at hl
        rcases hl with rfl | hl
        · have hx := ih x (by rw [hm]; exact List.mem_cons_self x xs)
          simp [List.mem_cons, hx]
          exact fun hh => h hh.symm
        · exact ih l (by rw [hm]; exact List.mem_cons_of_mem x hl)

theorem splitNlChars_of_noNl (a : List Char) (h : '\n' ∉ a) : splitNlChars a = [a] := by
  induction a with
  | nil => rfl
  | cons c rest ih =>
    have hc : c ≠ '\n' := fun hh => h (by rw [hh]; exact List.mem_cons_self _ _)
    have hr : '\n' ∉ rest := fun hm => h (List.mem_cons_of_mem _ hm)
    simp [splitNlChars, hc, ih hr]

theorem splitNlChars_append (a t : List Char) (h : '\n' ∉ a) :
    splitNlChars (a ++ '\n' :: t) = a :: splitNlChars t := by
  induction a with
  | nil => simp [splitNlChars]
  | cons c rest ih =>
    have hc : c ≠ '\n' := fun hh => h (by rw [hh]; exact List.mem_cons_self _ _)
    have hr : '\n' ∉ rest := fun hm => h (List.mem_cons_of_mem _ hm)
    simp [splitNlChars, hc, ih hr]

theorem splitNlChars_joinNlChars (ls : List (List Char)) (hne : ls ≠ [])
    (h : ∀ l ∈ ls, '\n' ∉ l) : splitNlChars (joinNlChars ls) = ls := by
  induction ls with
  | nil => cases hne rfl
  | cons x xs ih =>
    cases xs with
    | nil => exact splitNlChars_of_noNl x (h x (List.mem_cons_self _ _))
    | cons y ys =>
      rw [show joinNlChars (x :: y :: ys) = x ++ '\n' :: joinNlChars (y :: ys) from rfl]
      rw [splitNlChars_append _ _ (h x (List.mem_cons_self _ _))]
      rw [ih (by simp) (fun l hl => h l (List.mem_cons_of_mem _ hl))]

theorem splitNl_ne_nil (s : String) : splitNl s ≠ [] := by
  unfold splitNl
  intro h0
  exact splitNlChars_ne_nil s.data (List.map_eq_nil_iff.mp h0)

theorem noNl_splitNl (s : String) : ∀ l ∈ splitNl s, '\n' ∉ l.data := by
  intro l hl
  unfold splitNl at hl
  rcases List.mem_map.mp hl with ⟨cs, hcs, rfl⟩
  exact noNl_splitNlChars s.data cs hcs

theorem splitNl_joinNl (xs : List String) (hne : xs ≠ [])
    (h : ∀ l ∈ xs, '\n' ∉ l.data) : splitNl (joinNl xs) = xs := by
  unfold splitNl joinNl
  rw [show (String.mk (joinNlChars (xs.map String.data))).data
      = joinNlChars (xs.map String.data) from rfl]
  rw [splitNlChars_joinNlChars]
  · have hid : ∀ ys : List String, (ys.map String.data).map String.mk = ys := by
      intro ys
      induction ys with
      | nil => rfl
      | cons a as iha => simp [iha]
    exact hid xs
  · intro h0
    exact hne (List.map_eq_nil_iff.mp h0)
  · intro l hl
    rcases List.mem_map.mp hl with ⟨x, hx, rfl⟩
    exact h x hx

/-! The claims. -/

/-- C1: the claim says `writeBack` always preserves the total line count of
the document.  The code does not: it splices the serialized items over
`lines.slice(lineStart + 1, lineEnd - 1)` with no padding or truncation, so
the output has `(lineStart + 1) + max(1, items) + (length - (lineEnd - 1))`
lines.  At the failing input — a four-line document whose fenced `sortable`
block spans lines 0..3 and whose two parsed items are written back — the
output has five lines and the last body line `- b` is duplicated, exactly
the corruption the sortable-list PRD examples exhibit. -/
theorem claim_C1_writeBack_line_count :
    writeBack "```sortable\n- a\n- b\n```" 0 3
        [⟨"- ", CheckboxState.cbNone, "a"⟩, ⟨"- ", CheckboxState.cbNone, "b"⟩]
        Option.none Option.none
      = "```sortable\n- a\n- b\n- b\n```"
    ∧ (splitNl "```sortable\n- a\n- b\n```").length = 4
    ∧ (splitNl "```sortable\n- a\n- b\n- b\n```").length = 5 := by
  decide

/-- C2: `writeBack` never changes a line outside `[bodyStart, bodyEnd)` with
`bodyStart = lineStart + 1` and `bodyEnd = lineEnd - 1`: the output agrees
with the input on the first `bodyStart` lines, and the input lines from
`bodyEnd` onward reappear unchanged and in order right after the serialized
body. -/
theorem claim_C2_writeBack_frame (doc : String) (lineStart lineEnd : Nat)
    (items : List Item) (mi : Option Nat) (mc : Option CheckboxState)
    (h1 : lineStart + 1 ≤ lineEnd - 1) (h2 : lineEnd - 1 ≤ (splitNl doc).length) :
    (splitNl (writeBack doc lineStart lineEnd items mi mc)).take (lineStart + 1)
        = (splitNl doc).take (lineStart + 1)
    ∧ (splitNl (writeBack doc lineStart lineEnd items mi mc)).drop
          ((lineStart + 1) +
            (splitNl (joinNl ((applyCheckboxToggle items mi mc).map serializeItem))).length)
        = (splitNl doc).drop (lineEnd - 1) := by
  have hL : splitNl (writeBack doc lineStart lineEnd items mi mc)
      = (splitNl doc).take (lineStart + 1)
        ++ splitNl (joinNl ((applyCheckboxToggle items mi mc).map serializeItem))
        ++ (splitNl doc).drop (lineEnd - 1) := by
    unfold writeBack
    apply splitNl_joinNl
    · intro h0
      rcases List.append_eq_nil.mp h0 with ⟨h01, h02⟩
      rcases List.append_eq_nil.mp h01 with ⟨h03, h04⟩
      exact splitNl_ne_nil _ h04
    · intro l hl
      rcases List.mem_append.mp hl with hl2 | hl2
      · rcases List.mem_append.mp hl2 with hl3 | hl3
        · exact noNl_splitNl doc l (List.take_subset _ _ hl3)
        · exact noNl_splitNl _ l hl3
      · exact noNl_splitNl doc l (List.drop_subset _ _ hl2)
  have hAlen : ((splitNl doc).take (lineStart + 1)).length = lineStart + 1 := by
    rw [List.length_take]
    omega
  constructor
  · rw [hL, List.append_assoc, List.take_append_eq_append_take, hAlen]
    simp [List.take_take]
  · rw [hL]
    have hABlen : ((splitNl doc).take (lineStart + 1)
        ++ splitNl (joinNl ((applyCheckboxToggle items mi mc).map serializeItem))).length
        = (lineStart + 1) +
          (splitNl (joinNl ((applyCheckboxToggle items mi mc).map serializeItem))).length := by
      rw [List.length_append, hAlen]
    rw [← hABlen, List.drop_left]

/-- Witness for C2 at a concrete three-line document with one item. -/
theorem claim_C2_witness :
    (splitNl (writeBack "```sortable\n- a\n```" 0 2
          [⟨"- ", CheckboxState.cbNone, "a"⟩] Option.none Option.none)).take (0 + 1)
        = (splitNl "```sortable\n- a\n```").take (0 + 1)
    ∧ (splitNl (writeBack "```sortable\n- a\n```" 0 2
          [⟨"- ", CheckboxState.cbNone, "a"⟩] Option.none Option.none)).drop
          ((0 + 1) +
            (splitNl (joinNl ((applyCheckboxToggle
              [⟨"- ", CheckboxState.cbNone, "a"⟩] Option.none Option.none).map
                serializeItem))).length)
        = (splitNl "```sortable\n- a\n```").drop (2 - 1) :=
  claim_C2_writeBack_frame "```sortable\n- a\n```" 0 2
    [⟨"- ", CheckboxState.cbNone, "a"⟩] Option.none Option.none
    (by decide) (by decide)

/-- C3 (amended): `SchemaValidator.validate` is gated on the truthiness of
the `atomic-task` value, not on strict equality with boolean `true`: it
returns the trivially valid empty result exactly when that value is absent
or falsy.  (A truthy non-boolean value passes the gate; see the
counterexample.) -/
theorem claim_C3_validate_gate (fm : Frontmatter) (customFields : List CustomSchemaField)
    (today : Ymd) (h : truthyOpt (getKey fm "atomic-task") = false) :
    validate fm customFields today = { isValid := true, errors := [], warnings := [] } := by
  simp [validate, h]

/-- Witness for C3 at a record whose applies marker is boolean `false`. -/
theorem claim_C3_witness :
    validate [("atomic-task", Value.bool false)] [] sampleToday
      = { isValid := true, errors := [], warnings := [] } :=
  claim_C3_validate_gate [("atomic-task", Value.bool false)] [] sampleToday (by decide)

/-- Counterexample to C3 as stated: for the record whose `atomic-task` value
is the truthy non-boolean string `"yes"`, `validate` does not return the
trivially valid result (it reports the missing required fields). -/
theorem claim_C3_counterexample :
    validate [("atomic-task", Value.str "yes")] [] sampleToday
      ≠ { isValid := true, errors := [], warnings := [] } := by
  decide

/-- C4 (amended): `assignDefaults` itself has no applicability gate — the
no-op guarantee for non-applicable records is enforced one level up:
`FileEventHandler.processFile` returns without defaulting or validating
whenever `isAtomicNote` is false, so such a record is never modified. -/
theorem claim_C4_gate_in_processFile (fm : Frontmatter) (filename : String)
    (settings : TaskSystemSettings) (today : Ymd) (h : isAtomicNote fm = false) :
    processFile (Option.some fm) filename settings today
      = PipelineAction.skippedNonAtomic := by
  simp [processFile, h]

/-- Witness for C4 at the empty record. -/
theorem claim_C4_witness :
    processFile (Option.some []) "file.md" sampleSettings sampleToday
      = PipelineAction.skippedNonAtomic :=
  claim_C4_gate_in_processFile [] "file.md" sampleSettings sampleToday (by decide)

/-- Counterexample to C4 as stated: the empty record is not applicable
(`isAtomicNote` is false), yet `assignDefaults` does not return it
unchanged — it adds title, created_date, status, priority, tags and
dependencies. -/
theorem claim_C4_counterexample :
    isAtomicNote [] = false
    ∧ assignDefaults [] "file.md" sampleSettings sampleToday
        = [("title", Value.str "file"), ("created_date", Value.str "2026-10-11"),
           ("status", Value.str "todo"), ("priority", Value.str "medium"),
           ("tags", Value.list []), ("dependencies", Value.list [])]
    ∧ assignDefaults [] "file.md" sampleSettings sampleToday ≠ [] := by
  decide

/-- C5: with the current date held fixed, `assignDefaults` is idempotent,
and a pre-existing non-empty `created_date` string is returned untouched. -/
theorem claim_C5_assignDefaults_idem_and_preserve :
    (∀ (fm : Frontmatter) (filename : String) (settings : TaskSystemSettings) (today : Ymd),
        assignDefaults (assignDefaults fm filename settings today) filename settings today
          = assignDefaults fm filename settings today)
    ∧ (∀ (fm : Frontmatter) (filename : String) (settings : TaskSystemSettings)
          (today : Ymd) (s : String), s ≠ "" →
        getKey fm "created_date" = Option.some (Value.str s) →
        getKey (assignDefaults fm filename settings today) "created_date"
          = Option.some (Value.str s)) :=
  ⟨assignDefaults_idem, assignDefaults_preserves_created_date⟩

/-- C6: the number-type check of `validateFieldType` has its `isNaN`
condition negated: it accepts the non-coercing string `"abc"` (no error is
pushed, contradicting the claim and the pushed message text), accepts a
value of number type, and instead rejects the string `"123"` although it
coerces to the finite number 123. -/
theorem claim_C6_number_check_inverted :
    (validate [("atomic-task", Value.bool true), ("title", Value.str "t"),
        ("created_date", Value.str "2024-01-02"), ("status", Value.str "todo"),
        ("score", Value.str "abc")]
      [⟨"score-id", "Score", "score", "number", false, Option.none, Option.none,
        Option.none⟩] sampleToday).errors = []
    ∧ (validate [("atomic-task", Value.bool true), ("title", Value.str "t"),
        ("created_date", Value.str "2024-01-02"), ("status", Value.str "todo"),
        ("score", Value.num 5)]
      [⟨"score-id", "Score", "score", "number", false, Option.none, Option.none,
        Option.none⟩] sampleToday).errors = []
    ∧ validateFieldType "score" (Value.str "123") "number" Option.none
        = [⟨"score", "score must be a number", "error"⟩]
    ∧ validateFieldType "score" (Value.str "abc") "number" Option.none = [] := by
  decide

/-- C7: `getRequiredFields` contains every core required key, and every key
it returns is the name of a field returned by `getCombinedSchemaFields` for
the same custom-field list. -/
theorem claim_C7_required_subset_combined (cf : List CustomSchemaField) (k : String) :
    (k ∈ CORE_REQUIRED_FIELDS → k ∈ getRequiredFields cf)
    ∧ (k ∈ getRequiredFields cf
        → k ∈ (getCombinedSchemaFields cf).map SchemaField.name) := by
  constructor
  · intro hk
    unfold getRequiredFields
    exact List.mem_append_left _ hk
  · intro hk
    unfold getRequiredFields at hk
    unfold getCombinedSchemaFields
    rw [List.map_append]
    rcases List.mem_append.mp hk with hk2 | hk2
    · apply List.mem_append_left
      have hcore : CORE_SCHEMA_FIELDS.map SchemaField.name = CORE_REQUIRED_FIELDS := by rfl
      rw [hcore]
      exact hk2
    · rcases List.mem_map.mp hk2 with ⟨c, hc, rfl⟩
      apply List.mem_append_right
      rw [List.map_map]
      exact List.mem_map.mpr ⟨c, List.mem_of_mem_filter hc, rfl⟩

/-- Witness for C7 at a concrete custom-field list with one required field. -/
theorem claim_C7_witness :
    "title" ∈ getRequiredFields
        [⟨"score-id", "Score", "score", "number", true, Option.none, Option.none,
          Option.none⟩]
    ∧ "score" ∈ (getCombinedSchemaFields
        [⟨"score-id", "Score", "score", "number", true, Option.none, Option.none,
          Option.none⟩]).map SchemaField.name :=
  ⟨(claim_C7_required_subset_combined
      [⟨"score-id", "Score", "score", "number", true, Option.none, Option.none,
        Option.none⟩] "title").1 (by decide),
   (claim_C7_required_subset_combined
      [⟨"score-id", "Score", "score", "number", true, Option.none, Option.none,
        Option.none⟩] "score").2 (by decide)⟩

/-- C8 (amended): for the record `{atomic-task: true, status: "done"}` with
no other fields, `validate` returns `isValid = false` with two errors naming
the missing required fields `title` and `created_date`, and exactly one
warning naming `completed_date` — not the `isValid = true` single-warning
result the claim states. -/
theorem claim_C8_done_without_completed_date (today : Ymd) :
    validate [("atomic-task", Value.bool true), ("status", Value.str "done")] [] today
      = { isValid := false,
          errors := [⟨"title", "Required field \x27title\x27 is missing or empty", "error"⟩,
                     ⟨"created_date",
                      "Required field \x27created_date\x27 is missing or empty", "error"⟩],
          warnings := [⟨"completed_date",
                        "status is \"done\" but completed_date is not set", "warning"⟩] } := by
  rfl

/-- Counterexample to C8 as stated: at that record `validate` does not
return `isValid = true`. -/
theorem claim_C8_counterexample :
    (validate [("atomic-task", Value.bool true), ("status", Value.str "done")] []
        sampleToday).isValid = false := by
  decide

/-- C9: `isValidDateString` accepts a string only when it matches the
`\d{4}-\d{2}-\d{2}` pattern and its `Date` parse succeeds and round-trips
(here: the components form a real calendar date); in particular the
well-formed but nonexistent `2024-02-30` is rejected while the real leap
date `2024-02-29` is accepted, and date-field validation rejects
`2024-02-30`. -/
theorem claim_C9_isValidDateString_real_dates :
    isValidDateString "2024-02-30" = false
    ∧ isValidDateString "2024-02-29" = true
    ∧ validateFieldType "due_date" (Value.str "2024-02-30") "date" Option.none
        = [⟨"due_date", "due_date must be a valid date in YYYY-MM-DD format", "error"⟩]
    ∧ (∀ s : String, isValidDateString s = true
        → matchesIsoShape s = true ∧ parseIsoYmd s ≠ Option.none) := by
  refine ⟨by decide, by decide, by decide, ?_⟩
  intro s h
  unfold isValidDateString at h
  by_cases h0 : (s == "") = true
  · rw [if_pos h0] at h
    exact Bool.noConfusion h
  · rw [if_neg h0] at h
    by_cases h1 : matchesIsoShape s = true
    · refine ⟨h1, ?_⟩
      rw [if_neg (by simp [h1])] at h
      intro hnone
      rw [hnone] at h
      exact Bool.noConfusion h
    · rw [if_pos (by simp [h1])] at h
      exact Bool.noConfusion h

/-- C10: when a document starts with the opening fence `---\n` but the
closing fence text `\n---` never occurs afterwards, the replacement regex of
`FrontmatterWriter.writeFrontmatter` does not match, so the computed text
equals the original document for every serialized record: the frontmatter is
silently not written. -/
theorem claim_C10_writeFrontmatter_unclosed_fence (rest yamlString : List Char)
    (h : findFence rest = Option.none) :
    writeFrontmatterText ('-' :: '-' :: '-' :: '\n' :: rest) yamlString
      = '-' :: '-' :: '-' :: '\n' :: rest := by
  unfold writeFrontmatterText
  rw [if_pos]
  · rw [show ('-' :: '-' :: '-' :: '\n' :: rest).drop 4 = rest from rfl, h]
  · rfl

/-- Witness for C10 at a concrete unterminated document. -/
theorem claim_C10_witness :
    writeFrontmatterText ('-' :: '-' :: '-' :: '\n' :: "abc".data) "x: 1\n".data
      = '-' :: '-' :: '-' :: '\n' :: "abc".data :=
  claim_C10_writeFrontmatter_unclosed_fence "abc".data "x: 1\n".data (by decide)
